import Mathlib

/-!
Verification of the orchestration core of `whitepaper2li.py`.

The Python source is shallowly embedded: every operation the claims are
about is translated into an executable Lean definition.  String
primitives (`str.lower`, `str.split`, `str.strip`, `str.replace`,
`str.split(sep)`) are modelled structurally over `String.data`
(`List Char`) so that the kernel can evaluate them; Python's float
division in the Jaccard computation is modelled with exact rationals
(`ℚ`), the spec's idealised semantics.  External collaborators (OpenAI
calls, HTTP requests, the SQLite driver, the filesystem) appear as
explicit parameters: an `Option` result models a call that either
returns a value or raises.
-/

/-- Model of Python `s.lower()` restricted to ASCII letters, applied
characterwise (`Char.toLower`). -/
def lowerChars (l : List Char) : List Char := l.map Char.toLower

/-- Helper for `splitWs`: accumulates the current word (reversed) and
emits it when whitespace is hit, dropping empty words exactly as
Python `str.split()` with no argument does. -/
def splitWsAux : List Char → List Char → List (List Char)
  | [], acc => if acc = [] then [] else [acc.reverse]
  | c :: rest, acc =>
    if c.isWhitespace then
      if acc = [] then splitWsAux rest []
      else acc.reverse :: splitWsAux rest []
    else splitWsAux rest (c :: acc)

/-- Model of Python `str.split()` (no separator): split on whitespace
runs, never producing empty words. -/
def splitWs (l : List Char) : List String := (splitWsAux l []).map String.mk

/-- `whitepaper2li._check_content_similarity`, line 164: the word set of
a post, `set(post.lower().split())`. -/
def wordSet (s : String) : Finset String := (splitWs (lowerChars s.data)).toFinset

/-- `whitepaper2li._check_content_similarity` (lines 159-178): reject a
candidate iff its Jaccard word-set similarity to some window entry
exceeds `threshold`; an empty window or an empty word set on either
side never rejects.  Python's float division is modelled in `ℚ`,
including the `if union > 0 else 0` guard. -/
def check_content_similarity (new_post : String) (recent_posts : List String)
    (threshold : ℚ) : Bool :=
  if recent_posts = [] then false
  else
    let new_words := wordSet new_post
    recent_posts.any fun recent_post =>
      let recent_words := wordSet recent_post
      if new_words.card = 0 ∨ recent_words.card = 0 then false
      else
        let inter := (new_words ∩ recent_words).card
        let union := (new_words ∪ recent_words).card
        let similarity : ℚ := if 0 < union then (inter : ℚ) / (union : ℚ) else 0
        decide (threshold < similarity)

theorem check_content_similarity_nil (T : String) (t : ℚ) :
    check_content_similarity T [] t = false := rfl

theorem wordSet_card_ne_zero_iff (s : String) :
    (wordSet s).card ≠ 0 ↔ (wordSet s).Nonempty := by
  rw [Finset.nonempty_iff_ne_empty]
  simp [Finset.card_eq_zero]

/-- C3: the similarity check returns true iff some window entry `w` is
such that both the candidate `T` and `w` tokenize (lowercased,
whitespace-split) to non-empty word sets and their Jaccard ratio
strictly exceeds the threshold; in particular it returns false on an
empty window, and a comparison where either side tokenizes to the
empty set is skipped (can never cause a rejection). -/
theorem check_content_similarity_spec (T : String) (W : List String) (t : ℚ) :
    (check_content_similarity T W t = true ↔
      ∃ w ∈ W, (wordSet T).Nonempty ∧ (wordSet w).Nonempty ∧
        ((wordSet T ∩ wordSet w).card : ℚ) / ((wordSet T ∪ wordSet w).card : ℚ) > t)
    ∧ check_content_similarity T [] t = false := by
  constructor
  · unfold check_content_similarity
    rcases eq_or_ne W [] with hW | hW
    · subst hW
      simp
    · rw [if_neg hW, List.any_eq_true]
      constructor
      · rintro ⟨w, hw, hcheck⟩
        refine ⟨w, hw, ?_⟩
        by_cases hzero : (wordSet T).card = 0 ∨ (wordSet w).card = 0
        · simp only [if_pos hzero] at hcheck
          exact absurd hcheck (by simp)
        · simp only [if_neg hzero] at hcheck
          push_neg at hzero
          have hTn : (wordSet T).Nonempty := (wordSet_card_ne_zero_iff T).mp hzero.1
          have hwn : (wordSet w).Nonempty := (wordSet_card_ne_zero_iff w).mp hzero.2
          have hu : 0 < (wordSet T ∪ wordSet w).card :=
            Finset.card_pos.mpr (hTn.mono Finset.subset_union_left)
          rw [if_pos hu, decide_eq_true_iff] at hcheck
          exact ⟨hTn, hwn, hcheck⟩
      · rintro ⟨w, hw, hTn, hwn, hsim⟩
        refine ⟨w, hw, ?_⟩
        have hzero : ¬((wordSet T).card = 0 ∨ (wordSet w).card = 0) := by
          push_neg
          exact ⟨(wordSet_card_ne_zero_iff T).mpr hTn, (wordSet_card_ne_zero_iff w).mpr hwn⟩
        simp only [if_neg hzero]
        have hu : 0 < (wordSet T ∪ wordSet w).card :=
          Finset.card_pos.mpr (hTn.mono Finset.subset_union_left)
        rw [if_pos hu, decide_eq_true_iff]
        exact hsim
  · exact check_content_similarity_nil T t

/-- Model of Python `str.strip()`: drop leading and trailing
whitespace. -/
def pyStrip (s : String) : String :=
  String.mk (((s.data.dropWhile Char.isWhitespace).reverse.dropWhile
    Char.isWhitespace).reverse)

/-- `whitepaper2li._generate_linkedin_posts`, line 358 and 391:
`post.strip().replace(chr(0x2014), chr(0x2d))` — trim the segment and
replace every em dash with a plain dash. -/
def clean_post (p : String) : String :=
  String.mk ((pyStrip p).data.map (fun c => if c = '—' then '-' else c))

/-- Fuel-driven splitter on a literal separator, modelling Python
`str.split(sep)`: non-overlapping, left-to-right matches.  The fuel is
always at least the length of the remaining input plus one, so the
zero-fuel branch is unreachable. -/
def splitOnCharsAux (sep : List Char) : Nat → List Char → List Char → List (List Char)
  | _, [], acc => [acc.reverse]
  | 0, l, acc => [acc.reverse ++ l]
  | fuel + 1, c :: rest, acc =>
    if sep.isPrefixOf (c :: rest) then
      acc.reverse :: splitOnCharsAux sep fuel (List.drop (sep.length - 1) rest) []
    else splitOnCharsAux sep fuel rest (c :: acc)

/-- The literal marker separating generated post segments
(`whitepaper2li._generate_linkedin_posts`, lines 351 and 387). -/
def POST_SEPARATOR_MARKER : String := "---POST SEPARATOR---"

/-- `content.split(POST_SEPARATOR_MARKER)` applied to a generation
response. -/
def split_posts (content : String) : List String :=
  (splitOnCharsAux POST_SEPARATOR_MARKER.data (content.data.length + 1)
    content.data []).map String.mk

/-- Space-joined concatenation, modelling `chr(32).join(words)`. -/
def join_space : List String → String
  | [] => ""
  | [w] => w
  | w :: ws => w ++ " " ++ join_space ws

/-- `whitepaper2li._get_recent_posts`, lines 201-204: the first twenty
whitespace-split words of a stored post, rejoined with single spaces
(the post "opening" used for prompt guidance). -/
def first_20_words (s : String) : String :=
  join_space ((splitWs s.data).take 20)

/-- Presence flags for the four NocoDB connection parameters read in
`WhitepaperProcessor.__init__` (lines 47-50).  A flag is true iff the
corresponding environment value is set and truthy. -/
structure NocoConfig where
  base_url_set : Bool
  api_key_set : Bool
  table_id_set : Bool
  base_id_set : Bool
deriving DecidableEq, Fintype

/-- `whitepaper2li._get_recent_posts` (lines 180-211).  The HTTP fetch
is a collaborator: `fetch_result = none` models a request that raises
(caught at line 209, returning two empty lists); `some records` models
a successful response whose rows carry the given `post` fields.  Note
the guard at line 182 consults only three of the four connection
parameters — `nocodb_base_id` is not read here. -/
def get_recent_posts (cfg : NocoConfig) (fetch_result : Option (List String)) :
    List String × List String :=
  if !(cfg.base_url_set && cfg.api_key_set && cfg.table_id_set) then ([], [])
  else
    match fetch_result with
    | none => ([], [])
    | some records =>
      let nonempty := records.filter (fun p => !p.data.isEmpty)
      (nonempty.map first_20_words, nonempty)

/-- `whitepaper2li._generate_linkedin_posts`, lines 354-365: the first
pass over the split response.  Segments that strip to empty are
skipped; each surviving segment is cleaned and dropped iff
`_check_content_similarity` against the full recent posts at threshold
0.6 fires; survivors are kept in order. -/
def initial_pass : List String → List String → List String
  | [], _ => []
  | post :: rest, recent_full_posts =>
    if (pyStrip post).data.isEmpty then initial_pass rest recent_full_posts
    else
      let cleaned := clean_post post
      if check_content_similarity cleaned recent_full_posts (6 / 10) then
        initial_pass rest recent_full_posts
      else cleaned :: initial_pass rest recent_full_posts

/-- `whitepaper2li._generate_linkedin_posts`, lines 389-392: the pass
over the regenerated response.  Every segment with non-empty strip is
cleaned and kept — no similarity check is applied. -/
def retry_pass : List String → List String
  | [] => []
  | post :: rest =>
    if (pyStrip post).data.isEmpty then retry_pass rest
    else clean_post post :: retry_pass rest

/-- `whitepaper2li._generate_linkedin_posts` (lines 213-394), reduced
to its filtering skeleton.  The two OpenAI responses are collaborator
inputs: `response1` is the initial generation response and `response2`
the response the single stricter regeneration request would receive.
The recent-post window is fetched once (line 217); the regeneration
branch (line 368) fires iff the first pass kept nothing and the
full-post window is non-empty, and its candidates are accepted without
re-filtering.  The fetched openings (`recent_intros`) are interpolated
into the prompt only (lines 219-227) and play no part in filtering. -/
def generate_linkedin_posts (cfg : NocoConfig) (fetch_result : Option (List String))
    (response1 response2 : String) : List String :=
  let recent_full_posts := (get_recent_posts cfg fetch_result).2
  let cleaned_posts := initial_pass (split_posts response1) recent_full_posts
  if cleaned_posts.isEmpty && !recent_full_posts.isEmpty then
    retry_pass (split_posts response2)
  else cleaned_posts

theorem check_self (s : String) (rest : List String) (t : ℚ) (ht : t < 1)
    (hs : (wordSet s).card ≠ 0) : check_content_similarity s (s :: rest) t = true := by
  unfold check_content_similarity
  rw [if_neg (List.cons_ne_nil s rest), List.any_cons]
  have hzero : ¬((wordSet s).card = 0 ∨ (wordSet s).card = 0) := by
    push_neg
    exact ⟨hs, hs⟩
  simp only [if_neg hzero, Finset.inter_self, Finset.union_self, Bool.or_eq_true]
  left
  have hpos : 0 < (wordSet s).card := Nat.pos_of_ne_zero hs
  rw [if_pos hpos, div_self (by exact_mod_cast hs), decide_eq_true_iff]
  exact ht

theorem check_singleton (T w : String) (t : ℚ) (hT : (wordSet T).card ≠ 0)
    (hw : (wordSet w).card ≠ 0) :
    check_content_similarity T [w] t =
      decide (t < ((wordSet T ∩ wordSet w).card : ℚ) / ((wordSet T ∪ wordSet w).card : ℚ)) := by
  unfold check_content_similarity
  rw [if_neg (List.cons_ne_nil w []), List.any_cons, List.any_nil]
  have hzero : ¬((wordSet T).card = 0 ∨ (wordSet w).card = 0) := by
    push_neg
    exact ⟨hT, hw⟩
  have hu : 0 < (wordSet T ∪ wordSet w).card := by
    refine Finset.card_pos.mpr ?_
    exact ((Finset.nonempty_iff_ne_empty.mpr (fun h => hT (by rw [h, Finset.card_empty]))).mono
      Finset.subset_union_left)
  simp only [if_neg hzero, if_pos hu, Bool.or_false]

theorem mem_initial_pass (segs recent : List String) (c : String) :
    c ∈ initial_pass segs recent ↔
      ∃ p ∈ segs, (pyStrip p).data.isEmpty = false ∧ clean_post p = c ∧
        check_content_similarity (clean_post p) recent (6 / 10) = false := by
  induction segs with
  | nil => simp [initial_pass]
  | cons p rest ih =>
    unfold initial_pass
    by_cases h1 : (pyStrip p).data.isEmpty = true
    · rw [if_pos h1, ih]
      constructor
      · rintro ⟨q, hq, hqe, hqc, hqk⟩
        exact ⟨q, List.mem_cons_of_mem _ hq, hqe, hqc, hqk⟩
      · rintro ⟨q, hq, hqe, hqc, hqk⟩
        rcases List.mem_cons.mp hq with h | h
        · subst h
          rw [h1] at hqe
          cases hqe
        · exact ⟨q, h, hqe, hqc, hqk⟩
    · rw [if_neg h1]
      rw [Bool.not_eq_true] at h1
      by_cases h2 : check_content_similarity (clean_post p) recent (6 / 10) = true
      · rw [if_pos h2, ih]
        constructor
        · rintro ⟨q, hq, hqe, hqc, hqk⟩
          exact ⟨q, List.mem_cons_of_mem _ hq, hqe, hqc, hqk⟩
        · rintro ⟨q, hq, hqe, hqc, hqk⟩
          rcases List.mem_cons.mp hq with h | h
          · subst h
            rw [h2] at hqk
            cases hqk
          · exact ⟨q, h, hqe, hqc, hqk⟩
      · rw [if_neg h2, List.mem_cons, ih]
        rw [Bool.not_eq_true] at h2
        constructor
        · rintro (h | ⟨q, hq, hqe, hqc, hqk⟩)
          · exact ⟨p, List.mem_cons_self _ _, h1, h.symm, h2⟩
          · exact ⟨q, List.mem_cons_of_mem _ hq, hqe, hqc, hqk⟩
        · rintro ⟨q, hq, hqe, hqc, hqk⟩
          rcases List.mem_cons.mp hq with h | h
          · subst h
            exact Or.inl hqc.symm
          · exact Or.inr ⟨q, h, hqe, hqc, hqk⟩

theorem mem_retry_pass (segs : List String) (p : String) (hp : p ∈ segs)
    (hne : (pyStrip p).data.isEmpty = false) : clean_post p ∈ retry_pass segs := by
  induction segs with
  | nil => cases hp
  | cons q rest ih =>
    unfold retry_pass
    rcases List.mem_cons.mp hp with h | h
    · subst h
      rw [if_neg (by rw [hne]; exact Bool.false_ne_true)]
      exact List.mem_cons_self _ _
    · by_cases hq : (pyStrip q).data.isEmpty = true
      · rw [if_pos hq]
        exact ih h
      · rw [if_neg hq]
        exact List.mem_cons_of_mem _ (ih h)

theorem initial_pass_nil_window (segs : List String) :
    initial_pass segs [] = retry_pass segs := by
  induction segs with
  | nil => rfl
  | cons p rest ih =>
    unfold initial_pass retry_pass
    simp only [check_content_similarity_nil, Bool.false_eq_true, if_false, ih]

/-- C4: when every segment of the first generation response is rejected
by the similarity gate (threshold 0.6, full recent posts) and the
recent window is non-empty, the orchestrator performs its single
regeneration: the output is exactly the cleaned segments of the one
retry response, every non-empty-stripped retry segment is accepted
without being re-filtered, and the figure yields at least one artifact
whenever the retry response contains a non-empty segment. -/
theorem generate_retry_spec (cfg : NocoConfig) (fetch_result : Option (List String))
    (response1 response2 : String)
    (hwin : (get_recent_posts cfg fetch_result).2 ≠ [])
    (hrej : ∀ p ∈ split_posts response1, (pyStrip p).data.isEmpty = false →
      check_content_similarity (clean_post p) (get_recent_posts cfg fetch_result).2
        (6 / 10) = true) :
    generate_linkedin_posts cfg fetch_result response1 response2 =
      retry_pass (split_posts response2)
    ∧ (∀ p ∈ split_posts response2, (pyStrip p).data.isEmpty = false →
        clean_post p ∈ generate_linkedin_posts cfg fetch_result response1 response2)
    ∧ ((∃ p ∈ split_posts response2, (pyStrip p).data.isEmpty = false) →
        generate_linkedin_posts cfg fetch_result response1 response2 ≠ []) := by
  have hnil : initial_pass (split_posts response1) (get_recent_posts cfg fetch_result).2 = [] := by
    rw [List.eq_nil_iff_forall_not_mem]
    intro c hc
    rw [mem_initial_pass] at hc
    obtain ⟨p, hp, hne, _, hchk⟩ := hc
    rw [hrej p hp hne] at hchk
    cases hchk
  have hmain : generate_linkedin_posts cfg fetch_result response1 response2 =
      retry_pass (split_posts response2) := by
    have hmt : (get_recent_posts cfg fetch_result).2.isEmpty = false := by
      cases h : (get_recent_posts cfg fetch_result).2 with
      | nil => exact absurd h hwin
      | cons a l => rfl
    simp only [generate_linkedin_posts]
    rw [hnil, hmt]
    rfl
  refine ⟨hmain, ?_, ?_⟩
  · intro p hp hne
    rw [hmain]
    exact mem_retry_pass _ p hp hne
  · rintro ⟨p, hp, hne⟩
    rw [hmain]
    exact List.ne_nil_of_mem (mem_retry_pass _ p hp hne)

theorem generate_retry_spec_witness :
    ((get_recent_posts ⟨true, true, true, true⟩ (some ["alpha beta"])).2 ≠ [])
    ∧ generate_linkedin_posts ⟨true, true, true, true⟩ (some ["alpha beta"]) "alpha beta"
        "fresh take---POST SEPARATOR---another one" =
      retry_pass (split_posts "fresh take---POST SEPARATOR---another one")
    ∧ generate_linkedin_posts ⟨true, true, true, true⟩ (some ["alpha beta"]) "alpha beta"
        "fresh take---POST SEPARATOR---another one" ≠ [] := by
  have hwin : (get_recent_posts ⟨true, true, true, true⟩ (some ["alpha beta"])).2 ≠ [] := by
    decide
  have hrej : ∀ p ∈ split_posts "alpha beta", (pyStrip p).data.isEmpty = false →
      check_content_similarity (clean_post p)
        (get_recent_posts ⟨true, true, true, true⟩ (some ["alpha beta"])).2 (6 / 10) = true := by
    have hs : split_posts "alpha beta" = ["alpha beta"] := by decide
    rw [hs]
    intro p hp _
    rw [List.mem_singleton] at hp
    subst hp
    have hc : clean_post "alpha beta" = "alpha beta" := by decide
    have hr : (get_recent_posts ⟨true, true, true, true⟩ (some ["alpha beta"])).2 =
        ["alpha beta"] := by decide
    rw [hc, hr]
    exact check_self _ _ _ (by norm_num) (by decide)
  obtain ⟨h1, _, h3⟩ := generate_retry_spec ⟨true, true, true, true⟩ (some ["alpha beta"])
    "alpha beta" "fresh take---POST SEPARATOR---another one" hwin hrej
  exact ⟨hwin, h1, h3 (by decide)⟩

/-- A recent stored post of forty distinct words, used to probe the
orchestrator's treatment of post openings. -/
def probe_full_post : String :=
  "t01 t02 t03 t04 t05 t06 t07 t08 t09 t10 t11 t12 t13 t14 t15 t16 t17 t18 t19 t20 t21 t22 t23 t24 t25 t26 t27 t28 t29 t30 t31 t32 t33 t34 t35 t36 t37 t38 t39 t40"

/-- The twenty-word opening of `probe_full_post`, also used as a
generated candidate identical to that opening. -/
def probe_opening : String :=
  "t01 t02 t03 t04 t05 t06 t07 t08 t09 t10 t11 t12 t13 t14 t15 t16 t17 t18 t19 t20"

/-- C9 counterexample: a candidate that is word-for-word identical to
the stored opening of a recent post (Jaccard 1 against the fetched
openings, above any threshold, in particular above the looser 0.7) is
nevertheless accepted by the orchestrator, because no similarity check
is ever applied against the openings — only the single full-body check
at threshold 0.6 runs, and here the candidate is only 0.5-similar to
the full post body. -/
theorem generate_no_opening_check_counterexample :
    check_content_similarity probe_opening
      (get_recent_posts ⟨true, true, true, true⟩ (some [probe_full_post])).1 (7 / 10) = true
    ∧ probe_opening ∈ generate_linkedin_posts ⟨true, true, true, true⟩
        (some [probe_full_post]) probe_opening "" := by
  have hfetch : get_recent_posts ⟨true, true, true, true⟩ (some [probe_full_post]) =
      ([probe_opening], [probe_full_post]) := by decide
  constructor
  · rw [hfetch]
    exact check_self _ _ _ (by norm_num) (by decide)
  · have hchk : check_content_similarity probe_opening [probe_full_post] (6 / 10) = false := by
      rw [check_singleton _ _ _ (by decide) (by decide)]
      have hi : (wordSet probe_opening ∩ wordSet probe_full_post).card = 20 := by decide
      have hu : (wordSet probe_opening ∪ wordSet probe_full_post).card = 40 := by decide
      rw [hi, hu, decide_eq_false_iff_not]
      norm_num
    have hclean : clean_post probe_opening = probe_opening := by decide
    have hsplit : split_posts probe_opening = [probe_opening] := by decide
    have hstep : initial_pass [probe_opening] [probe_full_post] = [probe_opening] := by
      unfold initial_pass
      rw [if_neg (by decide)]
      simp only [hclean, hchk, Bool.false_eq_true, if_false]
      rfl
    simp only [generate_linkedin_posts]
    rw [hfetch, hsplit, hstep]
    exact List.mem_singleton.mpr rfl

/-- C9 amended: the orchestrator fetches both the twenty-word openings
and the full bodies of recent posts, but the similarity gate is applied
at exactly one point — each candidate against the full bodies at
threshold 0.6.  A segment of the first response survives iff it strips
non-empty and that single full-body check does not fire; the openings
never enter a gate call (they are interpolated into the prompt only). -/
theorem initial_pass_full_body_only (cfg : NocoConfig)
    (fetch_result : Option (List String)) (response1 : String) :
    ∀ c, c ∈ initial_pass (split_posts response1) (get_recent_posts cfg fetch_result).2 ↔
      ∃ p ∈ split_posts response1, (pyStrip p).data.isEmpty = false ∧ clean_post p = c ∧
        check_content_similarity (clean_post p) (get_recent_posts cfg fetch_result).2
          (6 / 10) = false := by
  intro c
  exact mem_initial_pass (split_posts response1) (get_recent_posts cfg fetch_result).2 c

/-- C10 counterexample: with endpoint, credential and table identifier
present but the base identifier missing — so the primary sink's
connection parameters are incomplete — the recent-posts fetch still
proceeds (the guard at line 182 never reads `nocodb_base_id`), the
window comes back non-empty, and a candidate is rejected by the gate:
similarity filtering is not disabled in this configuration. -/
theorem get_recent_posts_base_id_counterexample :
    get_recent_posts ⟨true, true, true, false⟩ (some ["hello world"]) ≠ ([], [])
    ∧ check_content_similarity "hello world"
        (get_recent_posts ⟨true, true, true, false⟩ (some ["hello world"])).2 (6 / 10) = true := by
  constructor
  · decide
  · have h : (get_recent_posts ⟨true, true, true, false⟩ (some ["hello world"])).2 =
        ["hello world"] := by decide
    rw [h]
    exact check_self _ _ _ (by norm_num) (by decide)

/-- C10 amended: if any of the endpoint, credential or table identifier
is missing (the base identifier is not consulted by the fetch), or the
fetch request raises, the recent-artifact window is returned empty; in
consequence the similarity gate never rejects a candidate and the
regeneration retry never triggers — the pipeline keeps every
non-empty-stripped segment of the first response, independently of the
retry response. -/
theorem get_recent_posts_unavailable (cfg : NocoConfig)
    (fetch_result : Option (List String))
    (h : cfg.base_url_set = false ∨ cfg.api_key_set = false ∨ cfg.table_id_set = false ∨
      fetch_result = none) :
    get_recent_posts cfg fetch_result = ([], [])
    ∧ ∀ response1 response2, generate_linkedin_posts cfg fetch_result response1 response2 =
        retry_pass (split_posts response1) := by
  have hempty : get_recent_posts cfg fetch_result = ([], []) := by
    unfold get_recent_posts
    rcases h with h | h | h | h
    · rw [h]
      rfl
    · rw [h]
      cases cfg.base_url_set <;> rfl
    · rw [h]
      cases cfg.base_url_set <;> cases cfg.api_key_set <;> rfl
    · rw [h]
      cases cfg.base_url_set <;> cases cfg.api_key_set <;> cases cfg.table_id_set <;> rfl
  refine ⟨hempty, fun response1 response2 => ?_⟩
  simp only [generate_linkedin_posts]
  rw [hempty]
  simp only [List.isEmpty_nil, Bool.not_true, Bool.and_false, Bool.false_eq_true, if_false]
  exact initial_pass_nil_window (split_posts response1)

theorem get_recent_posts_unavailable_witness :
    (⟨false, true, true, true⟩ : NocoConfig).base_url_set = false
    ∧ get_recent_posts ⟨false, true, true, true⟩ (some ["hello"]) = ([], [])
    ∧ generate_linkedin_posts ⟨false, true, true, true⟩ (some ["hello"]) "a b" "c" =
        retry_pass (split_posts "a b") :=
  ⟨rfl, (get_recent_posts_unavailable ⟨false, true, true, true⟩ (some ["hello"])
      (Or.inl rfl)).1,
    (get_recent_posts_unavailable ⟨false, true, true, true⟩ (some ["hello"])
      (Or.inl rfl)).2 "a b" "c"⟩

/-- A row of the SQLite `processing_state` table created by
`whitepaper2li._init_db` (lines 55-69): primary key
`(pdf_sha256, image_index)`, a `processed` flag, and a `created_at`
timestamp whose column default `CURRENT_TIMESTAMP` is filled in at
insert time. -/
structure ProcessingRecord where
  pdf_sha256 : String
  image_index : Nat
  processed : Bool
  created_at : Nat
deriving DecidableEq

/-- The key-and-flag part of a row, forgetting `created_at`. -/
def record_key_state (r : ProcessingRecord) : String × Nat × Bool :=
  (r.pdf_sha256, r.image_index, r.processed)

/-- `whitepaper2li._mark_processed` (lines 494-503):
`INSERT OR REPLACE INTO processing_state (pdf_sha256, image_index,
processed) VALUES (?, ?, TRUE)`.  SQLite's `INSERT OR REPLACE` deletes
any row with the same primary key and inserts a fresh row; the omitted
`created_at` column takes its default, `CURRENT_TIMESTAMP` at the time
of this call, modelled by the explicit `now` parameter. -/
def mark_processed (now : Nat) (db : List ProcessingRecord) (pdf_hash : String)
    (image_index : Nat) : List ProcessingRecord :=
  (db.filter fun r =>
      !(decide (r.pdf_sha256 = pdf_hash) && decide (r.image_index = image_index))) ++
    [{ pdf_sha256 := pdf_hash, image_index := image_index, processed := true,
       created_at := now }]

/-- `whitepaper2li._get_unprocessed_images` (lines 505-516): collect the
`image_index` values of rows with this hash and `processed = TRUE`,
then keep the indices of `range(total_images)` not among them. -/
def get_unprocessed_images (db : List ProcessingRecord) (pdf_hash : String)
    (total_images : Nat) : List Nat :=
  let processed := (db.filter fun r =>
      decide (r.pdf_sha256 = pdf_hash) && r.processed).map (fun r => r.image_index)
  (List.range total_images).filter (fun i => decide (i ∉ processed))

/-- C6: `get_unprocessed_images` returns exactly the indices in
`[0, total_images)` that have no `processed = true` ledger record for
the given document hash, in strictly ascending order — the sorted set
difference; an index already recorded processed is never returned. -/
theorem get_unprocessed_images_spec (db : List ProcessingRecord) (pdf_hash : String)
    (total_images : Nat) :
    (∀ i, i ∈ get_unprocessed_images db pdf_hash total_images ↔
      i < total_images ∧ ¬∃ r ∈ db, r.pdf_sha256 = pdf_hash ∧ r.image_index = i ∧
        r.processed = true)
    ∧ (get_unprocessed_images db pdf_hash total_images).Sorted (· < ·) := by
  constructor
  · intro i
    simp only [get_unprocessed_images, List.mem_filter, List.mem_range, List.mem_map,
      decide_eq_true_iff, Bool.and_eq_true]
    constructor
    · rintro ⟨hlt, hnot⟩
      refine ⟨hlt, ?_⟩
      rintro ⟨r, hr, hh, hi, hp⟩
      exact hnot ⟨r, ⟨hr, hh, hp⟩, hi⟩
    · rintro ⟨hlt, hnot⟩
      refine ⟨hlt, ?_⟩
      rintro ⟨r, ⟨hr, hh, hp⟩, hi⟩
      exact hnot ⟨r, hr, hh, hi, hp⟩
  · exact (List.pairwise_lt_range total_images).filter _

/-- C8 counterexample: `mark_processed` is not idempotent on the full
stored record.  Because `INSERT OR REPLACE` re-inserts the row, the
omitted `created_at` column is refilled with the current timestamp, so
a second call at a later time (time 1 after time 0) leaves a different
ledger state than a single call. -/
theorem mark_processed_counterexample :
    mark_processed 1 (mark_processed 0 [] "h" 0) "h" 0 ≠ mark_processed 0 [] "h" 0 := by
  decide

/-- C8 amended: `mark_processed` is idempotent up to, and only up to,
the `created_at` column: a repeated call for the same key at the same
timestamp is exactly a no-op, and a repeated call at any later time
leaves the keys and `processed` flags of every row unchanged, replacing
only the stored row's `created_at` with the later call's time. -/
theorem mark_processed_idem (now : Nat) (db : List ProcessingRecord)
    (pdf_hash : String) (image_index : Nat) :
    mark_processed now (mark_processed now db pdf_hash image_index) pdf_hash image_index =
      mark_processed now db pdf_hash image_index
    ∧ ∀ later,
      (mark_processed later (mark_processed now db pdf_hash image_index) pdf_hash
          image_index).map record_key_state =
        (mark_processed now db pdf_hash image_index).map record_key_state := by
  have hfilter : ∀ t, (mark_processed t db pdf_hash image_index).filter (fun r =>
      !(decide (r.pdf_sha256 = pdf_hash) && decide (r.image_index = image_index))) =
      db.filter (fun r =>
        !(decide (r.pdf_sha256 = pdf_hash) && decide (r.image_index = image_index))) := by
    intro t
    unfold mark_processed
    rw [List.filter_append, List.filter_filter]
    simp
  constructor
  · conv_lhs => rw [mark_processed, hfilter now]
    rfl
  · intro later
    conv_lhs => rw [mark_processed, hfilter now]
    conv_rhs => rw [mark_processed]
    rw [List.map_append, List.map_append]
    rfl

/-- A data row of the fallback CSV written by
`whitepaper2li._save_to_csv` (lines 481-492); the header row written on
file creation is left implicit. -/
structure CsvRow where
  post : String
  image : String
  image_description : String
  image_index : Nat
  created_at : Nat
deriving DecidableEq

/-- `whitepaper2li._save_to_csv` (lines 481-492): open the day's CSV in
append mode, write the header iff the file did not exist, then append
exactly one data row.  `none` models an absent file. -/
def save_to_csv (existing : Option (List CsvRow)) (row : CsvRow) : List CsvRow :=
  match existing with
  | none => [row]
  | some rows => rows ++ [row]

/-- The externally visible outcome of one commit: the fallback CSV
file's data rows afterwards, the remote table's rows afterwards
(identified by their post text), and whether the primary path was
entered at all. -/
structure StoreOutcome where
  csv_file : Option (List CsvRow)
  remote_posts : List String
  primary_attempted : Bool
deriving DecidableEq

/-- `whitepaper2li._store_in_nocodb` (lines 419-479).  The guard at line
421 requires all four connection parameters; `upload_ok` models
`_upload_image_to_nocodb` returning file info rather than `None` (its
own exceptions are caught at line 415, yielding `None`); `write_ok`
models the record POST at line 474 succeeding rather than raising (the
exception is caught at line 477).  Every failure branch calls
`_save_to_csv` exactly once and returns; the success branch writes
exactly one remote record and leaves the CSV untouched.  The function
raises nothing: all three failure modes are handled in-line. -/
def store_in_nocodb (cfg : NocoConfig) (upload_ok write_ok : Bool) (row : CsvRow)
    (csv_file : Option (List CsvRow)) (remote_posts : List String) : StoreOutcome :=
  if !(cfg.base_url_set && cfg.api_key_set && cfg.table_id_set && cfg.base_id_set) then
    { csv_file := some (save_to_csv csv_file row), remote_posts := remote_posts,
      primary_attempted := false }
  else if !upload_ok then
    { csv_file := some (save_to_csv csv_file row), remote_posts := remote_posts,
      primary_attempted := true }
  else if !write_ok then
    { csv_file := some (save_to_csv csv_file row), remote_posts := remote_posts,
      primary_attempted := true }
  else
    { csv_file := csv_file, remote_posts := remote_posts ++ [row.post],
      primary_attempted := true }

/-- C1: the commit never drops an artifact and records it in exactly
one place.  The primary sink is attempted iff all four connection
parameters are present; when they all are and both the image upload and
the record write succeed, exactly one remote record is added and the
CSV is untouched; in every other case (missing configuration, upload
failure, or write failure) exactly one row is appended to the
append-only CSV fallback and the remote store is untouched. -/
theorem store_in_nocodb_spec (cfg : NocoConfig) (upload_ok write_ok : Bool)
    (row : CsvRow) (csv_file : Option (List CsvRow)) (remote_posts : List String) :
    (store_in_nocodb cfg upload_ok write_ok row csv_file remote_posts).primary_attempted =
      (cfg.base_url_set && cfg.api_key_set && cfg.table_id_set && cfg.base_id_set)
    ∧ (store_in_nocodb cfg upload_ok write_ok row csv_file remote_posts).csv_file =
      (if cfg.base_url_set && cfg.api_key_set && cfg.table_id_set && cfg.base_id_set &&
          upload_ok && write_ok then csv_file
        else some ((csv_file.getD []) ++ [row]))
    ∧ (store_in_nocodb cfg upload_ok write_ok row csv_file remote_posts).remote_posts =
      (if cfg.base_url_set && cfg.api_key_set && cfg.table_id_set && cfg.base_id_set &&
          upload_ok && write_ok then remote_posts ++ [row.post]
        else remote_posts) := by
  obtain ⟨b1, b2, b3, b4⟩ := cfg
  cases b1 <;> cases b2 <;> cases b3 <;> cases b4 <;> cases upload_ok <;> cases write_ok <;>
    cases csv_file <;>
    simp [store_in_nocodb, save_to_csv]


/-- The analysis result consumed by the orchestrator: either the
structured payload parsed from the model reply, or the degraded
fallback dictionary built at line 157 carrying the raw reply text. -/
inductive Analysis
  | structured (payload : String)
  | fallbackRaw (content : String)
deriving DecidableEq

/-- The try/except of `whitepaper2li._analyze_image` (lines 150-157):
parsing a successful reply (fence stripping plus `json.loads`,
abstracted as the `parse` parameter) either yields the structured
payload or degrades to the minimal raw-text fallback dictionary —
it never raises. -/
def parse_analysis (content : String) (parse : String → Option String) : Analysis :=
  match parse content with
  | some payload => Analysis.structured payload
  | none => Analysis.fallbackRaw content

/-- `whitepaper2li._analyze_image` (lines 122-157).  The OpenAI request
(line 128) is a collaborator call with no surrounding handler: `none`
models it raising, and the exception propagates; a successful call
always yields an analysis. -/
def analyze_image (api_result : Option String) (parse : String → Option String) :
    Option Analysis :=
  match api_result with
  | none => none
  | some content => some (parse_analysis content parse)

/-- An observable side effect of the driver loop in
`WhitepaperProcessor.process` (lines 544-568): handing one post to the
persistence router (line 556), or marking one figure processed
(line 564). -/
inductive Event
  | store (idx : Nat) (post : String)
  | mark (idx : Nat)
deriving DecidableEq

/-- The figure index an event belongs to. -/
def event_index : Event → Nat
  | Event.store idx _ => idx
  | Event.mark idx => idx

/-- Whether an event belongs to figure `idx`. -/
def touches (idx : Nat) (e : Event) : Bool := decide (event_index e = idx)

/-- The two collaborator calls of one loop iteration (lines 549-552):
the analysis request for figure `idx` followed by the generation step.
`none` means one of the calls raised. -/
def figure_step (api : Nat → Option String) (parse : String → Option String)
    (gen : Nat → Analysis → Option (List String)) (idx : Nat) : Option (List String) :=
  match analyze_image (api idx) parse with
  | none => none
  | some a => gen idx a

/-- The driver loop of `WhitepaperProcessor.process` (lines 544-568),
one iteration per unprocessed figure index, with the collaborators as
parameters: `api idx` is the analysis request for figure `idx` (`none`
= raises), `parse` the reply parser, and `gen idx a` the complete
generation step for figure `idx` (`none` = one of its OpenAI calls
raises; `some posts` = the filtered candidate list).  There is no
try/except anywhere in the loop, so a failing call aborts the whole
loop: the result is the list of effects performed before the failure
point, paired with `false` when an exception escaped `process` and
`true` when the loop completed. -/
def process_figures (api : Nat → Option String) (parse : String → Option String)
    (gen : Nat → Analysis → Option (List String)) : List Nat → List Event × Bool
  | [] => ([], true)
  | idx :: rest =>
    match figure_step api parse gen idx with
    | none => ([], false)
    | some posts =>
      let res := process_figures api parse gen rest
      (posts.map (Event.store idx) ++ [Event.mark idx] ++ res.1, res.2)

theorem process_figures_cons (api : Nat → Option String)
    (parse : String → Option String) (gen : Nat → Analysis → Option (List String))
    (idx : Nat) (rest : List Nat) :
    process_figures api parse gen (idx :: rest) =
      (match figure_step api parse gen idx with
        | none => ([], false)
        | some posts =>
          (posts.map (Event.store idx) ++ [Event.mark idx] ++
              (process_figures api parse gen rest).1,
            (process_figures api parse gen rest).2)) := rfl

theorem process_figures_cons_fails (api : Nat → Option String)
    (parse : String → Option String) (gen : Nat → Analysis → Option (List String))
    (idx : Nat) (rest : List Nat) (h : figure_step api parse gen idx = none) :
    process_figures api parse gen (idx :: rest) = ([], false) := by
  rw [process_figures_cons, h]

theorem process_figures_cons_ok (api : Nat → Option String)
    (parse : String → Option String) (gen : Nat → Analysis → Option (List String))
    (idx : Nat) (rest : List Nat) (posts : List String)
    (h : figure_step api parse gen idx = some posts) :
    process_figures api parse gen (idx :: rest) =
      (posts.map (Event.store idx) ++ [Event.mark idx] ++
          (process_figures api parse gen rest).1,
        (process_figures api parse gen rest).2) := by
  rw [process_figures_cons, h]

/-- Lexicographic order on character lists by code point, the order
Python uses to sort the extracted asset names (`image_files.sort()` at
line 108). -/
def charsLe : List Char → List Char → Bool
  | [], _ => true
  | _ :: _, [] => false
  | a :: as, b :: bs => if a < b then true else if b < a then false else charsLe as bs

theorem charsLe_total : ∀ a b : List Char, charsLe a b = true ∨ charsLe b a = true
  | [], _ => Or.inl rfl
  | _ :: _, [] => Or.inr rfl
  | a :: as, b :: bs => by
    rcases lt_trichotomy a b with h | h | h
    · left
      unfold charsLe
      rw [if_pos h]
    · subst h
      rcases charsLe_total as bs with ih | ih
      · left
        unfold charsLe
        rw [if_neg (lt_irrefl a), if_neg (lt_irrefl a)]
        exact ih
      · right
        unfold charsLe
        rw [if_neg (lt_irrefl a), if_neg (lt_irrefl a)]
        exact ih
    · right
      unfold charsLe
      rw [if_pos h]

theorem charsLe_trans : ∀ a b c : List Char, charsLe a b = true → charsLe b c = true →
    charsLe a c = true
  | [], _, _ => fun _ _ => rfl
  | _ :: _, [], _ => fun h _ => by cases h
  | _ :: _, _ :: _, [] => fun _ h => by cases h
  | a :: as, b :: bs, c :: cs => fun h1 h2 => by
    unfold charsLe at h1 h2 ⊢
    by_cases hab : a < b
    · by_cases hbc : b < c
      · rw [if_pos (lt_trans hab hbc)]
      · by_cases hcb : c < b
        · rw [if_neg hbc, if_pos hcb] at h2
          cases h2
        · have hbceq : b = c := le_antisymm (not_lt.mp hcb) (not_lt.mp hbc)
          subst hbceq
          rw [if_pos hab]
    · by_cases hba : b < a
      · rw [if_neg hab, if_pos hba] at h1
        cases h1
      · have habeq : a = b := le_antisymm (not_lt.mp hba) (not_lt.mp hab)
        subst habeq
        rw [if_neg (lt_irrefl a), if_neg (lt_irrefl a)] at h1
        by_cases hac : a < c
        · rw [if_pos hac]
        · by_cases hca : c < a
          · rw [if_neg hac, if_pos hca] at h2
            cases h2
          · rw [if_neg hac, if_neg hca] at h2 ⊢
            exact charsLe_trans as bs cs h1 h2

theorem charsLe_antisymm : ∀ a b : List Char, charsLe a b = true → charsLe b a = true →
    a = b
  | [], [] => fun _ _ => rfl
  | [], _ :: _ => fun _ h => by cases h
  | _ :: _, [] => fun h _ => by cases h
  | a :: as, b :: bs => fun h1 h2 => by
    by_cases hab : a < b
    · unfold charsLe at h2
      rw [if_neg (lt_asymm hab), if_pos hab] at h2
      cases h2
    · by_cases hba : b < a
      · unfold charsLe at h1
        rw [if_neg hab, if_pos hba] at h1
        cases h1
      · have habeq : a = b := le_antisymm (not_lt.mp hba) (not_lt.mp hab)
        subst habeq
        unfold charsLe at h1 h2
        rw [if_neg (lt_irrefl a), if_neg (lt_irrefl a)] at h1 h2
        rw [charsLe_antisymm as bs h1 h2]

/-- Lexicographic order on the asset locator strings. -/
def strLe (a b : String) : Prop := charsLe a.data b.data = true

instance : DecidableRel strLe := fun a b => by
  unfold strLe
  infer_instance

instance : IsTotal String strLe := ⟨fun a b => charsLe_total a.data b.data⟩

instance : IsTrans String strLe :=
  ⟨fun a b c h1 h2 => charsLe_trans a.data b.data c.data h1 h2⟩

instance : IsAntisymm String strLe := by
  refine ⟨fun a b h1 h2 => ?_⟩
  cases a with
  | mk da =>
    cases b with
    | mk db => exact congrArg String.mk (charsLe_antisymm da db h1 h2)

/-- An entry of the prepared asset directory: its filename (relative to
the fixed directory, a constant path prefix that affects neither the
pattern match, the ordering, nor the indexing) together with the
intrinsic width PIL reads from it — `none` models an unreadable or
corrupt asset, for which `Image.open` raises. -/
structure ImageFile where
  name : String
  width : Option Nat
deriving DecidableEq

/-- A name matches the glob `images-*.png` of line 107 iff it has the
literal prefix, the literal suffix, and room for both. -/
def matches_glob (s : String) : Bool :=
  List.isPrefixOf ("images-" : String).data s.data &&
    List.isSuffixOf (".png" : String).data s.data && decide (11 ≤ s.data.length)

/-- Sorting key for directory entries: compare asset names. -/
def fileLe (a b : ImageFile) : Prop := strLe a.name b.name

instance : DecidableRel fileLe := fun a b => by
  unfold fileLe
  infer_instance

instance : IsTotal ImageFile fileLe := ⟨fun a b => charsLe_total a.name.data b.name.data⟩

instance : IsTrans ImageFile fileLe :=
  ⟨fun a b c h1 h2 => charsLe_trans a.name.data b.name.data c.name.data h1 h2⟩

/-- The width admission test of lines 113-118: an asset is admitted iff
PIL can open it and reports width strictly above 300; an asset whose
open raises is skipped (`except Exception: continue`). -/
def width_admissible : Option Nat → Bool
  | some w => decide (300 < w)
  | none => false

/-- `whitepaper2li._extract_images` (lines 100-120): an absent
directory yields the empty list (line 103); otherwise the glob matches
are sorted by name (the glob enumeration order is arbitrary, hence the
permutation freedom in the theorems below) and the admitted widths are
kept, in sorted order. -/
def extract_images (images_dir : Option (List ImageFile)) : List String :=
  match images_dir with
  | none => []
  | some files =>
    let image_files := files.filter (fun f => matches_glob f.name)
    let sorted_files := List.insertionSort fileLe image_files
    (sorted_files.filter (fun f => width_admissible f.width)).map (fun f => f.name)

theorem extract_images_sorted (files : List ImageFile) :
    (extract_images (some files)).Sorted strLe := by
  have hsorted : (List.insertionSort fileLe
      (files.filter (fun f => matches_glob f.name))).Sorted fileLe :=
    List.sorted_insertionSort fileLe _
  exact List.Pairwise.map (fun f : ImageFile => f.name)
    (fun a b (h : fileLe a b) => h)
    (List.Pairwise.filter (fun f => width_admissible f.width) hsorted)

theorem extract_images_perm (files files' : List ImageFile) (hperm : files.Perm files') :
    (extract_images (some files)).Perm (extract_images (some files')) := by
  have h1 := hperm.filter (fun f => matches_glob f.name)
  have h2 : (List.insertionSort fileLe (files.filter (fun f => matches_glob f.name))).Perm
      (List.insertionSort fileLe (files'.filter (fun f => matches_glob f.name))) :=
    ((List.perm_insertionSort _ _).trans h1).trans (List.perm_insertionSort _ _).symm
  exact (h2.filter (fun f => width_admissible f.width)).map (fun f => f.name)

/-- C7: extraction of figure candidates.  The absent directory yields
the empty sequence rather than an error; a locator is returned iff some
directory entry carries it, it matches the recognized `images-*.png`
pattern, and its readable intrinsic width strictly exceeds 300
(unreadable assets — width `none` — are skipped, not fatal); the
output is lexicographically sorted; and the output is invariant under
permutation of the directory enumeration, so repeated invocation over
an unchanged directory reproduces the identical sequence and index
assignment. -/
theorem extract_images_spec (files files' : List ImageFile) (hperm : files.Perm files') :
    extract_images none = []
    ∧ (∀ s, s ∈ extract_images (some files) ↔
        ∃ f ∈ files, f.name = s ∧ matches_glob f.name = true ∧
          ∃ w, f.width = some w ∧ 300 < w)
    ∧ (extract_images (some files)).Sorted strLe
    ∧ extract_images (some files) = extract_images (some files') := by
  refine ⟨rfl, ?_, extract_images_sorted files, ?_⟩
  · intro s
    simp only [extract_images, List.mem_map, List.mem_filter]
    constructor
    · rintro ⟨f, ⟨hf, hw⟩, hname⟩
      have hfmem : f ∈ files.filter (fun f => matches_glob f.name) :=
        (List.perm_insertionSort fileLe _).subset hf
      rw [List.mem_filter] at hfmem
      cases hww : f.width with
      | none =>
        rw [hww] at hw
        cases hw
      | some w =>
        rw [hww] at hw
        exact ⟨f, hfmem.1, hname, hfmem.2, w, hww, of_decide_eq_true hw⟩
    · rintro ⟨f, hf, hname, hglob, w, hww, hwgt⟩
      refine ⟨f, ⟨?_, ?_⟩, hname⟩
      · exact (List.perm_insertionSort fileLe _).symm.subset
          (List.mem_filter.mpr ⟨hf, hglob⟩)
      · rw [hww]
        exact decide_eq_true hwgt
  · exact List.eq_of_perm_of_sorted (extract_images_perm files files' hperm)
      (extract_images_sorted files) (extract_images_sorted files')

/-- A concrete asset directory used to witness `extract_images_spec`:
glob order scrambled, one non-matching name, one undersized asset, one
unreadable asset. -/
def witness_files : List ImageFile :=
  [⟨"images-002.png", some 400⟩, ⟨"images-001.png", some 500⟩,
    ⟨"images-003.png", some 200⟩, ⟨"logo.png", some 999⟩, ⟨"images-004.png", none⟩]

theorem extract_images_spec_witness :
    witness_files.Perm witness_files.reverse
    ∧ extract_images (some witness_files) = ["images-001.png", "images-002.png"]
    ∧ extract_images (some witness_files) = extract_images (some witness_files.reverse) :=
  ⟨(List.reverse_perm witness_files).symm, by decide,
    (extract_images_spec witness_files witness_files.reverse
      (List.reverse_perm witness_files).symm).2.2.2⟩

/-- C2 counterexample: the analysis call for figure 0 raises while every
collaborator call for figure 1 would succeed, yet the driver performs
no effect at all and the exception escapes (`false`): figure 1 is never
reached, so a single-figure failure does abort the batch rather than
being skipped. -/
theorem process_figures_counterexample :
    process_figures (fun i => if i = 0 then none else some "reply")
      (fun s => some s) (fun _ _ => some ["post"]) [0, 1] = ([], false) := by
  decide

/-- C2 amended: a collaborator failure (analysis request, or any
generation request) on the figure at the head of the work list leaves
that figure unmarked — so it is retried on the next run — but the
exception escapes the driver and aborts the batch: no effect is
performed for any figure of the list.  (Parse failures of a successful
analysis reply, by contrast, never fail a figure.) -/
theorem process_figures_failure_aborts (api : Nat → Option String)
    (parse : String → Option String) (gen : Nat → Analysis → Option (List String))
    (idx : Nat) (rest : List Nat)
    (hfail : api idx = none ∨
      ∃ a, analyze_image (api idx) parse = some a ∧ gen idx a = none) :
    process_figures api parse gen (idx :: rest) = ([], false)
    ∧ ∀ content, analyze_image (some content) parse ≠ none := by
  constructor
  · refine process_figures_cons_fails api parse gen idx rest ?_
    rcases hfail with h | ⟨a, ha, hg⟩
    · have hnone : analyze_image (api idx) parse = none := by
        unfold analyze_image
        rw [h]
      unfold figure_step
      rw [hnone]
    · have hstep : figure_step api parse gen idx = gen idx a := by
        unfold figure_step
        rw [ha]
      rw [hstep]
      exact hg
  · intro content h
    exact Option.noConfusion h

theorem process_figures_failure_aborts_witness :
    ((fun i => if i = 0 then none else some "reply") 0 = (none : Option String))
    ∧ process_figures (fun i => if i = 0 then none else some "reply")
        (fun s => some s) (fun _ _ => some ["post"]) [0, 1] = ([], false) :=
  ⟨rfl, (process_figures_failure_aborts (fun i => if i = 0 then none else some "reply")
    (fun s => some s) (fun _ _ => some ["post"]) 0 [1] (Or.inl rfl)).1⟩

theorem event_index_mem_process_figures (api : Nat → Option String)
    (parse : String → Option String) (gen : Nat → Analysis → Option (List String)) :
    ∀ indices : List Nat, ∀ e ∈ (process_figures api parse gen indices).1,
      event_index e ∈ indices := by
  intro indices
  induction indices with
  | nil =>
    intro e he
    cases he
  | cons idx rest ih =>
    intro e he
    cases ho : figure_step api parse gen idx with
    | none =>
      rw [process_figures_cons_fails api parse gen idx rest ho] at he
      cases he
    | some posts =>
      rw [process_figures_cons_ok api parse gen idx rest posts ho] at he
      simp only [List.append_assoc, List.mem_append, List.mem_map,
        List.mem_singleton] at he
      rcases he with ⟨p, _, hp⟩ | he | he
      · rw [← hp]
        exact List.mem_cons_self _ _
      · rw [he]
        exact List.mem_cons_self _ _
      · exact List.mem_cons_of_mem _ (ih e he)

/-- C5: in a run the driver completed (no collaborator failure, result
flag `true`), every figure of the (duplicate-free) work list receives
its mark, and the events performed for that figure are exactly the
stores of its generation result followed by that single final mark: so
`mark_processed` is requested only after every surviving candidate of
the figure has been handed to the persistence router, and a figure
whose generation survives with zero candidates (`ps = []`) is
nevertheless still marked — its event trace is just the mark. -/
theorem process_figures_marks_last (api : Nat → Option String)
    (parse : String → Option String) (gen : Nat → Analysis → Option (List String))
    (indices : List Nat) (hnodup : indices.Nodup)
    (hok : (process_figures api parse gen indices).2 = true) :
    ∀ idx ∈ indices,
      ∃ ps : List String, figure_step api parse gen idx = some ps ∧
        (process_figures api parse gen indices).1.filter (touches idx) =
          ps.map (Event.store idx) ++ [Event.mark idx] := by
  revert hnodup hok
  induction indices with
  | nil =>
    intro _ _ idx h
    cases h
  | cons j rest ih =>
    intro hnodup hok idx hidx
    cases ho : figure_step api parse gen j with
    | none =>
      rw [process_figures_cons_fails api parse gen j rest ho] at hok
      cases hok
    | some posts =>
      have hrest : (process_figures api parse gen rest).2 = true := by
        rw [process_figures_cons_ok api parse gen j rest posts ho] at hok
        exact hok
      rw [process_figures_cons_ok api parse gen j rest posts ho]
      simp only [List.filter_append]
      rcases List.mem_cons.mp hidx with h | h
      · subst h
        have h1 : (posts.map (Event.store idx)).filter (touches idx) =
            posts.map (Event.store idx) := by
          rw [List.filter_eq_self]
          intro e he
          obtain ⟨p, _, hp⟩ := List.mem_map.mp he
          rw [← hp]
          exact decide_eq_true rfl
        have h2 : [Event.mark idx].filter (touches idx) = [Event.mark idx] := by
          rw [List.filter_eq_self]
          intro e he
          rw [List.mem_singleton] at he
          rw [he]
          exact decide_eq_true rfl
        have h3 : (process_figures api parse gen rest).1.filter (touches idx) = [] := by
          rw [List.filter_eq_nil_iff]
          intro e he
          have hmem := event_index_mem_process_figures api parse gen rest e he
          have hne : event_index e ≠ idx := by
            intro hcontra
            rw [hcontra] at hmem
            exact (List.nodup_cons.mp hnodup).1 hmem
          simp [touches, hne]
        refine ⟨posts, ho, ?_⟩
        rw [h1, h2, h3, List.append_nil]
      · have hji : j ≠ idx := by
          intro hcontra
          rw [hcontra] at hnodup
          exact (List.nodup_cons.mp hnodup).1 h
        have h1 : (posts.map (Event.store j)).filter (touches idx) = [] := by
          rw [List.filter_eq_nil_iff]
          intro e he
          obtain ⟨p, _, hp⟩ := List.mem_map.mp he
          rw [← hp]
          simp [touches, event_index, hji]
        have h2 : [Event.mark j].filter (touches idx) = [] := by
          rw [List.filter_eq_nil_iff]
          intro e he
          rw [List.mem_singleton] at he
          rw [he]
          simp [touches, event_index, hji]
        rw [h1, h2, List.nil_append, List.nil_append]
        exact ih (List.nodup_cons.mp hnodup).2 hrest idx h

theorem process_figures_marks_last_witness :
    ([0, 1] : List Nat).Nodup
    ∧ (process_figures (fun _ => some "reply") (fun s => some s)
        (fun i _ => if i = 0 then some ["p1", "p2"] else some []) [0, 1]).2 = true
    ∧ (1 : Nat) ∈ ([0, 1] : List Nat)
    ∧ (∃ ps : List String,
        figure_step (fun _ => some "reply") (fun s => some s)
          (fun i _ => if i = 0 then some ["p1", "p2"] else some []) 1 = some ps ∧
        (process_figures (fun _ => some "reply") (fun s => some s)
          (fun i _ => if i = 0 then some ["p1", "p2"] else some []) [0, 1]).1.filter
            (touches 1) = ps.map (Event.store 1) ++ [Event.mark 1])
    ∧ (process_figures (fun _ => some "reply") (fun s => some s)
        (fun i _ => if i = 0 then some ["p1", "p2"] else some []) [0, 1]).1.filter
          (touches 1) = [Event.mark 1] :=
  ⟨by decide, by decide, by decide,
    process_figures_marks_last (fun _ => some "reply") (fun s => some s)
      (fun i _ => if i = 0 then some ["p1", "p2"] else some []) [0, 1] (by decide)
      (by decide) 1 (by decide),
    by decide⟩
